import Mathlib

/-!
Verification of the token-lifecycle and authenticated-request component of
the `oac-client` CLI (`src/oac-client/core/oac/oac_client.go`).

The Go source is shallowly embedded as pure Lean functions:

* time is modelled as `Int` epoch seconds (the persisted format of the
  cache file, and the granularity at which every claim speaks);
* the OAuth2 token exchange performed by the `golang.org/x/oauth2`
  library (`clientcredentials.Config.Token` and
  `oauth2.Config.PasswordCredentialsToken`) is an oracle parameter of type
  `Except Unit TokenResp`; a `TokenResp` carries the access token string
  and an optional absolute expiry (`none` models `token.Expiry.IsZero()`);
* the HTTP transport (`http.DefaultClient.Do`) is an oracle
  `Nat → Except Unit Resp` giving the outcome of the i-th issued attempt;
* the filesystem read for the request body (`os.Stat` + `os.ReadFile`)
  is an oracle `String → Option String`;
* `encoding/json` is modelled twice, at the two levels the source uses it:
  a byte-level model (`unmarshal` / `marshalIndent` below, restricted to
  integer numerals and the escapes \x5c and \x22 — the restriction is
  irrelevant to every claim, which only exercises integers and plain
  strings) for `prettyPrintJSON`, and a value-level model for the cache
  file (its content is a `FileState`: absent, malformed bytes, or a parsed
  `Json` value).

State-changing functions return their outputs explicitly: `obtainToken`
reports whether the network exchange was reached (`network`) and what
`saveTokenToFile` wrote (`written`), `GetToken` reports whether the
provider (`obtainToken`) was invoked, and `RestCall` reports the list of
HTTP requests actually issued, in order.
-/

namespace OacSpec

/-- Model of a JSON value as `encoding/json` sees it when decoding into
`map[string]any` / `[]interface{}`: numbers restricted to integers
(Go uses `float64`; every claim only exercises integer numerals). -/
inductive Json where
  | null
  | jbool (b : Bool)
  | num (n : Int)
  | str (s : String)
  | arr (xs : List Json)
  | obj (fields : List (String × Json))

/-- JSON insignificant whitespace, per RFC 8259 and `encoding/json`:
space, tab, newline, carriage return. -/
def skipWs : List Char → List Char
  | c :: cs => if c == ' ' || c == '\t' || c == '\n' || c == '\r' then skipWs cs else c :: cs
  | [] => []

/-- Scan the remainder of a JSON string literal (the opening quote already
consumed), handling the escapes `\x5c`, `\x22`, `/`, `n`, `t`, `r`.
Returns the decoded string and the input after the closing quote. -/
def parseStringAux : List Char → List Char → Option (String × List Char)
  | acc, '"' :: rest => some (⟨acc.reverse⟩, rest)
  | acc, '\\' :: c :: rest =>
    match c with
    | '"' => parseStringAux ('"' :: acc) rest
    | '\\' => parseStringAux ('\\' :: acc) rest
    | '/' => parseStringAux ('/' :: acc) rest
    | 'n' => parseStringAux ('\n' :: acc) rest
    | 't' => parseStringAux ('\t' :: acc) rest
    | 'r' => parseStringAux ('\r' :: acc) rest
    | _ => none
  | _, '\\' :: [] => none
  | acc, c :: rest => parseStringAux (c :: acc) rest
  | _, [] => none

/-- Take the longest run of decimal digits from the front of the input. -/
def takeDigits : List Char → List Char × List Char
  | [] => ([], [])
  | c :: rest =>
    if c.isDigit then
      let p := takeDigits rest
      (c :: p.1, p.2)
    else ([], c :: rest)

def digitsToNatAux : Nat → List Char → Nat
  | acc, [] => acc
  | acc, c :: rest => digitsToNatAux (acc * 10 + (c.toNat - '0'.toNat)) rest

/-- Parse a JSON integer numeral (optional leading minus). -/
def parseNumber (input : List Char) : Option (Json × List Char) :=
  match input with
  | '-' :: rest =>
    match takeDigits rest with
    | ([], _) => none
    | (ds, r) => some (Json.num (-(digitsToNatAux 0 ds : Int)), r)
  | _ =>
    match takeDigits input with
    | ([], _) => none
    | (ds, r) => some (Json.num (digitsToNatAux 0 ds : Int), r)

/-- Parser mode: a whole value, the elements of an array after its first
element started, or the members of an object. -/
inductive PMode where
  | value
  | elems (acc : List Json)
  | members (acc : List (String × Json))

/-- Fuel-indexed recursive-descent JSON parser (model of the syntactic
part of `json.Unmarshal`).  Structural recursion on the fuel so that
concrete runs reduce definitionally. -/
def parseStep : Nat → PMode → List Char → Option (Json × List Char)
  | 0, _, _ => none
  | Nat.succ fuel, PMode.value, input =>
    (match skipWs input with
     | 'n' :: 'u' :: 'l' :: 'l' :: rest => some (Json.null, rest)
     | 't' :: 'r' :: 'u' :: 'e' :: rest => some (Json.jbool true, rest)
     | 'f' :: 'a' :: 'l' :: 's' :: 'e' :: rest => some (Json.jbool false, rest)
     | '"' :: rest => (parseStringAux [] rest).map (fun p => (Json.str p.1, p.2))
     | '[' :: rest =>
       (match skipWs rest with
        | ']' :: rest2 => some (Json.arr [], rest2)
        | rest2 => parseStep fuel (PMode.elems []) rest2)
     | '{' :: rest =>
       (match skipWs rest with
        | '}' :: rest2 => some (Json.obj [], rest2)
        | rest2 => parseStep fuel (PMode.members []) rest2)
     | c :: rest => if c == '-' || c.isDigit then parseNumber (c :: rest) else none
     | [] => none)
  | Nat.succ fuel, PMode.elems acc, input =>
    (match parseStep fuel PMode.value input with
     | some (v, rest) =>
       (match skipWs rest with
        | ',' :: rest2 => parseStep fuel (PMode.elems (v :: acc)) rest2
        | ']' :: rest2 => some (Json.arr (v :: acc).reverse, rest2)
        | _ => none)
     | none => none)
  | Nat.succ fuel, PMode.members acc, input =>
    (match skipWs input with
     | '"' :: rest =>
       (match parseStringAux [] rest with
        | some (k, rest2) =>
          (match skipWs rest2 with
           | ':' :: rest3 =>
             (match parseStep fuel PMode.value rest3 with
              | some (v, rest4) =>
                (match skipWs rest4 with
                 | ',' :: rest5 => parseStep fuel (PMode.members ((k, v) :: acc)) rest5
                 | '}' :: rest5 => some (Json.obj ((k, v) :: acc).reverse, rest5)
                 | _ => none)
              | none => none)
           | _ => none)
        | none => none)
     | _ => none)

/-- Model of `json.Unmarshal` on raw bytes: one JSON value, with nothing
but whitespace allowed after it. -/
def unmarshal (s : String) : Option Json :=
  match parseStep (2 * s.data.length + 2) PMode.value s.data with
  | some (j, rest) => if skipWs rest = [] then some j else none
  | none => none

/-- Escape a string for JSON output (backslash and double quote). -/
def escapeJsonString (s : String) : String :=
  ⟨s.data.foldr (fun c acc =>
      match c with
      | '"' => '\\' :: '"' :: acc
      | '\\' => '\\' :: '\\' :: acc
      | c => c :: acc) []⟩

def quoteStr (s : String) : String :=
  "\"" ++ escapeJsonString s ++ "\""

/-- Insert a field into a key-sorted field list (Go serializes maps with
keys in sorted order). -/
def insertField (p : String × Json) : List (String × Json) → List (String × Json)
  | [] => [p]
  | q :: qs => if p.1 ≤ q.1 then p :: q :: qs else q :: insertField p qs

def sortFields : List (String × Json) → List (String × Json)
  | [] => []
  | p :: ps => insertField p (sortFields ps)

/-- Replace the binding of `k` if present, else append: models the
last-duplicate-wins behaviour of decoding an object into a Go map. -/
def upsert (k : String) (v : Json) : List (String × Json) → List (String × Json)
  | [] => [(k, v)]
  | q :: qs => if q.1 = k then (k, v) :: qs else q :: upsert k v qs

def dedupeFields (fs : List (String × Json)) : List (String × Json) :=
  fs.foldl (fun acc p => upsert p.1 p.2 acc) []

mutual
/-- Normalize a parsed JSON tree the way a round trip through
`map[string]any` does: object fields deduplicated (last wins) and sorted
by key, recursively. -/
def normalizeJson : Json → Json
  | Json.obj fs => Json.obj (sortFields (dedupeFields (normalizeFields fs)))
  | Json.arr xs => Json.arr (normalizeList xs)
  | j => j

def normalizeFields : List (String × Json) → List (String × Json)
  | [] => []
  | (k, v) :: rest => (k, normalizeJson v) :: normalizeFields rest

def normalizeList : List Json → List Json
  | [] => []
  | x :: xs => normalizeJson x :: normalizeList xs
end

mutual
/-- Model of `json.MarshalIndent(v, "", "  ")` on an already-normalized
tree; `ind` is the indentation prefix of the current nesting level. -/
def renderJson (ind : String) : Json → String
  | Json.null => "null"
  | Json.jbool b => if b then "true" else "false"
  | Json.num n => toString n
  | Json.str s => quoteStr s
  | Json.arr [] => "[]"
  | Json.arr (x :: xs) =>
    "[\n" ++ ind ++ "  " ++ renderJson (ind ++ "  ") x ++
      renderElems (ind ++ "  ") xs ++ "\n" ++ ind ++ "]"
  | Json.obj [] => "\x7b\x7d"
  | Json.obj ((k, v) :: fs) =>
    "\x7b\n" ++ ind ++ "  " ++ quoteStr k ++ ": " ++ renderJson (ind ++ "  ") v ++
      renderMembers (ind ++ "  ") fs ++ "\n" ++ ind ++ "\x7d"

def renderElems (ind : String) : List Json → String
  | [] => ""
  | x :: xs => ",\n" ++ ind ++ renderJson ind x ++ renderElems ind xs

def renderMembers (ind : String) : List (String × Json) → String
  | [] => ""
  | (k, v) :: fs => ",\n" ++ ind ++ quoteStr k ++ ": " ++ renderJson ind v ++ renderMembers ind fs
end

/-- `json.MarshalIndent(obj, "", "  ")` composed with the map round trip
performed by decoding into `map[string]any` / `[]interface{}`. -/
def marshalIndent (j : Json) : String :=
  renderJson "" (normalizeJson j)

/-- `unicode.IsSpace` restricted to ASCII, as used by `strings.TrimSpace`. -/
def isSpaceGo (c : Char) : Bool :=
  c == ' ' || c == '\t' || c == '\n' || c == '\x0b' || c == '\x0c' || c == '\r'

/-- Model of `strings.TrimSpace`. -/
def trimSpace (s : String) : String :=
  ⟨((s.data.dropWhile isSpaceGo).reverse.dropWhile isSpaceGo).reverse⟩

/-- The literal success message for an empty response body
(`oac_client.go:213`). -/
def noContentMsg : String := "Request succeeded (no content)."

/-- The error taxonomy of `oac_client.go`, one constructor per
`fmt.Errorf` site plus the two error kinds returned by library calls the
code propagates (transport failure, JSON decode failure). -/
inductive OacError where
  | missingEnv
  | missingUserPass
  | unsupportedGrant (g : String)
  | exchangeFailed
  | networkError
  | requestFailed (status : Nat) (body : String)
  | formatError
deriving DecidableEq

/-- The message text of each error, mirroring the `fmt.Errorf` format
strings of the source (library-produced texts abbreviated). -/
def errMsg : OacError → String
  | OacError.missingEnv => "missing required environment variables"
  | OacError.missingUserPass => "username/password must be set for password grant"
  | OacError.unsupportedGrant g => "unsupported grant type: " ++ g
  | OacError.exchangeFailed => "failed to obtain token: exchange error"
  | OacError.networkError => "transport error"
  | OacError.requestFailed status body => "request failed: " ++ toString status ++ " " ++ body
  | OacError.formatError => "json decode error"

/-- `strings.HasPrefix(s, p)` for the single-character prefixes the
source uses: does `s` start with character `c`? -/
def firstCharIs (s : String) (c : Char) : Bool :=
  match s.data with
  | [] => false
  | d :: _ => d == c

/-- Embedding of `prettyPrintJSON` (`oac_client.go:210-233`): classify the
trimmed body by its first character; `\x7b`/`[` bodies are decoded and
re-encoded with indentation, decode failure is fatal; empty bodies yield
the no-content message; anything else is returned as (trimmed) text. -/
def prettyPrintJSON (data : String) : Except OacError String :=
  if trimSpace data = "" then Except.ok noContentMsg
  else if firstCharIs (trimSpace data) '{' then
    match unmarshal data with
    | none => Except.error OacError.formatError
    | some j => Except.ok (marshalIndent j)
  else if firstCharIs (trimSpace data) '[' then
    match unmarshal data with
    | none => Except.error OacError.formatError
    | some j => Except.ok (marshalIndent j)
  else Except.ok (trimSpace data)

/-- The `OacClient` struct: in-memory token record.  `tokenExpiry` is in
epoch seconds (`time.Time` at the second granularity every claim uses). -/
structure OacClient where
  accessToken : String
  tokenExpiry : Int
deriving DecidableEq

/-- A token returned by the oauth2 library exchange; `expiry = none`
models `token.Expiry.IsZero()`. -/
structure TokenResp where
  accessToken : String
  expiry : Option Int
deriving DecidableEq

/-- The environment variables read by `obtainToken` and `RestCall`. -/
structure Env where
  idcsTokenURL : String
  clientID : String
  clientSecret : String
  scope : String
  username : String
  password : String
  grantType : String
  oacInstance : String

/-- The section-3 validity invariant, which is also verbatim the fast-path
condition of `GetToken` (`oac_client.go:36`): non-empty token and current
time strictly before expiry (`time.Now().Before`). -/
def tokenValid (c : OacClient) (now : Int) : Prop :=
  c.accessToken ≠ "" ∧ now < c.tokenExpiry

instance (c : OacClient) (now : Int) : Decidable (tokenValid c now) :=
  inferInstanceAs (Decidable (_ ∧ _))

/-- The token-record update of `oac_client.go:97-103`: take the advertised
token; expiry is the advertised one minus a one-minute margin, or
now + (1 hour - 1 minute) when the provider advertised none. -/
def applyToken (now : Int) (tok : TokenResp) : OacClient :=
  { accessToken := tok.accessToken,
    tokenExpiry :=
      match tok.expiry with
      | none => now + (3600 - 60)
      | some e => e - 60 }

/-- The cache record written by `saveTokenToFile` (`oac_client.go:174-182`):
the JSON object with the bearer string and the expiry as integer epoch
seconds (`Unix()`). -/
def saveTokenToFile (c : OacClient) : Json :=
  Json.obj [("access_token", Json.str c.accessToken), ("expires_at", Json.num c.tokenExpiry)]

/-- The possible states of the cache file as seen by `loadTokenFromFile`:
unreadable (`os.ReadFile` error), bytes `json.Unmarshal` rejects, or a
decoded JSON value. -/
inductive FileState where
  | absent
  | malformed
  | json (j : Json)

/-- Look a key up in a decoded object the way a Go map built by
`json.Unmarshal` resolves it: the last duplicate wins. -/
def lookupField (fields : List (String × Json)) (key : String) : Option Json :=
  fields.foldl (fun acc p => if p.1 = key then some p.2 else acc) none

/-- Embedding of `loadTokenFromFile` (`oac_client.go:185-207`): total — a
missing, malformed or wrong-typed cache leaves the client unchanged; a
well-typed record sets both fields and clears the token when already
expired (`time.Now().After`). -/
def loadTokenFromFile (file : FileState) (now : Int) (c : OacClient) : OacClient :=
  match file with
  | FileState.absent => c
  | FileState.malformed => c
  | FileState.json (Json.obj fields) =>
    (match lookupField fields "access_token", lookupField fields "expires_at" with
     | some (Json.str tok), some (Json.num exp) =>
       if exp < now then { accessToken := "", tokenExpiry := exp }
       else { accessToken := tok, tokenExpiry := exp }
     | _, _ => c)
  | FileState.json _ => c

/-- Output of `obtainToken`: the result, whether the network token
exchange was reached, and the record written to the cache file (`none`
when not reached or when the ignored `os.WriteFile` failed). -/
structure ObtainOut where
  result : Except OacError OacClient
  network : Bool
  written : Option Json

/-- The tail of `obtainToken` after grant dispatch
(`oac_client.go:93-106`): propagate an exchange failure, else install the
token and best-effort save (`saveOk` models whether the ignored
`os.WriteFile` succeeded). -/
def finishExchange (now : Int) (exchange : Except Unit TokenResp) (saveOk : Bool) : ObtainOut :=
  match exchange with
  | Except.error _ => ⟨Except.error OacError.exchangeFailed, true, none⟩
  | Except.ok tok =>
    ⟨Except.ok (applyToken now tok), true,
      if saveOk then some (saveTokenToFile (applyToken now tok)) else none⟩

/-- Embedding of `obtainToken` (`oac_client.go:48-107`).  The previous
client state is not an input: on success both fields are overwritten, on
any failure the Go method returns before touching them.  The URL
normalization of line 49 only feeds the library config and is absorbed
into the exchange oracle. -/
def obtainToken (env : Env) (now : Int) (exchange : Except Unit TokenResp)
    (saveOk : Bool) : ObtainOut :=
  if env.clientID = "" ∨ env.clientSecret = "" ∨ env.scope = "" ∨ env.grantType = "" then
    ⟨Except.error OacError.missingEnv, false, none⟩
  else if env.grantType = "client_credentials" then
    finishExchange now exchange saveOk
  else if env.grantType = "resource_owner" then
    if env.username = "" ∨ env.password = "" then
      ⟨Except.error OacError.missingUserPass, false, none⟩
    else finishExchange now exchange saveOk
  else ⟨Except.error (OacError.unsupportedGrant env.grantType), false, none⟩

/-- The configuration states `obtainToken` accepts: all grant-agnostic
fields present, and a supported grant with its own credentials present. -/
def envOk (env : Env) : Prop :=
  env.clientID ≠ "" ∧ env.clientSecret ≠ "" ∧ env.scope ≠ "" ∧ env.grantType ≠ "" ∧
    (env.grantType = "client_credentials" ∨
      (env.grantType = "resource_owner" ∧ env.username ≠ "" ∧ env.password ≠ ""))

instance (env : Env) : Decidable (envOk env) :=
  inferInstanceAs (Decidable (_ ∧ _))

/-- Output of `GetToken`: result, resulting client state, whether the
provider (`obtainToken`) was invoked, and the cache record written. -/
structure GetOut where
  result : Except OacError String
  client : OacClient
  providerCalled : Bool
  written : Option Json

/-- Embedding of `GetToken` (`oac_client.go:35-45`): fast path when the
in-memory record is valid, otherwise obtain a fresh token and return
`oacClient.AccessToken` as then set. -/
def GetToken (env : Env) (now : Int) (exchange : Except Unit TokenResp)
    (saveOk : Bool) (c : OacClient) : GetOut :=
  if tokenValid c now then ⟨Except.ok c.accessToken, c, false, none⟩
  else
    match obtainToken env now exchange saveOk with
    | ⟨Except.error e, _, w⟩ => ⟨Except.error e, c, true, w⟩
    | ⟨Except.ok c', _, w⟩ => ⟨Except.ok c'.accessToken, c', true, w⟩

/-- One HTTP request as `RestCall` materializes it: upper-cased method,
joined URL, resolved body bytes, and the bearer placed in the
`Authorization` header. -/
structure Req where
  method : String
  url : String
  body : String
  authToken : String
deriving DecidableEq

/-- An HTTP response: status code and body bytes. -/
structure Resp where
  status : Nat
  body : String
deriving DecidableEq

/-- Output of `RestCall`: result, final client state, the HTTP attempts
actually issued in order, and how many times the provider was invoked. -/
structure RestOut where
  result : Except OacError String
  client : OacClient
  requests : List Req
  providerCalls : Nat

/-- `strings.TrimLeft(s, "/")`. -/
def trimLeftSlashes (s : String) : String :=
  ⟨s.data.dropWhile (· == '/')⟩

/-- `strings.TrimRight(s, "/")`. -/
def trimRightSlashes (s : String) : String :=
  ⟨(s.data.reverse.dropWhile (· == '/')).reverse⟩

/-- URL join of `oac_client.go:130`: exactly one separating slash. -/
def buildURL (instanceURL path : String) : String :=
  trimRightSlashes instanceURL ++ "/" ++ trimLeftSlashes path

/-- Body resolution of `oac_client.go:116-126`: empty argument means empty
body; an argument naming a readable file means its contents; otherwise
the argument text itself is the payload. -/
def resolveBody (fs : String → Option String) (bodyFile : String) : String :=
  if bodyFile = "" then ""
  else
    match fs bodyFile with
    | some content => content
    | none => bodyFile

/-- The post-attempt tail of `RestCall` (`oac_client.go:160-171`): non-2xx
fails with the status and raw body, 2xx formats the body. -/
def finishResp (resp : Resp) (reqs : List Req) (c : OacClient) (pc : Nat) : RestOut :=
  if resp.status < 200 ∨ 300 ≤ resp.status then
    ⟨Except.error (OacError.requestFailed resp.status resp.body), c, reqs, pc⟩
  else
    match prettyPrintJSON resp.body with
    | Except.error e => ⟨Except.error e, c, reqs, pc⟩
    | Except.ok s => ⟨Except.ok s, c, reqs, pc⟩

/-- Embedding of `RestCall` (`oac_client.go:110-171`).  `http i` is the
outcome of the i-th issued attempt (`Except.error` a transport failure).
On a 401 first response the cached token is cleared, re-acquired, and the
same request is issued once more with only the Authorization header
replaced; the status check then applies to the current response. -/
def RestCall (env : Env) (now : Int) (exchange : Except Unit TokenResp) (saveOk : Bool)
    (fs : String → Option String) (http : Nat → Except Unit Resp)
    (method path bodyFile : String) (c : OacClient) : RestOut :=
  let g := GetToken env now exchange saveOk c
  match g.result with
  | Except.error e => ⟨Except.error e, g.client, [], if g.providerCalled then 1 else 0⟩
  | Except.ok token =>
    let pc0 : Nat := if g.providerCalled then 1 else 0
    let req0 : Req :=
      ⟨method.toUpper, buildURL env.oacInstance path, resolveBody fs bodyFile, token⟩
    match http 0 with
    | Except.error _ => ⟨Except.error OacError.networkError, g.client, [req0], pc0⟩
    | Except.ok resp0 =>
      if resp0.status = 401 then
        let c2 : OacClient := { g.client with accessToken := "" }
        let g2 := GetToken env now exchange saveOk c2
        let pc1 : Nat := pc0 + (if g2.providerCalled then 1 else 0)
        match g2.result with
        | Except.error e => ⟨Except.error e, g2.client, [req0], pc1⟩
        | Except.ok token2 =>
          let req1 : Req := { req0 with authToken := token2 }
          match http 1 with
          | Except.error _ => ⟨Except.error OacError.networkError, g2.client, [req0, req1], pc1⟩
          | Except.ok resp1 => finishResp resp1 [req0, req1] g2.client pc1
      else finishResp resp0 [req0] g.client pc0

/-- A concrete well-formed configuration, used to instantiate theorems. -/
def sampleEnv : Env :=
  ⟨"https://idcs.example/oauth2/v1/token", "cid", "sec", "scope", "user", "pw",
    "client_credentials", "https://inst.example"⟩

/-! ## Helper lemmas -/

theorem obtainToken_envOk (env : Env) (now : Int) (tok : TokenResp) (saveOk : Bool)
    (h : envOk env) :
    obtainToken env now (Except.ok tok) saveOk =
      ⟨Except.ok (applyToken now tok), true,
        if saveOk then some (saveTokenToFile (applyToken now tok)) else none⟩ := by
  obtain ⟨h1, h2, h3, h4, h5⟩ := h
  unfold obtainToken
  rw [if_neg (by simp [h1, h2, h3, h4])]
  rcases h5 with hcc | ⟨hro, hu, hp⟩
  · rw [if_pos hcc]; rfl
  · rw [if_neg (by simp [hro]), if_pos hro, if_neg (by simp [hu, hp])]; rfl

theorem obtainToken_result_saveOk (env : Env) (now : Int) (ex : Except Unit TokenResp)
    (s s' : Bool) :
    (obtainToken env now ex s).result = (obtainToken env now ex s').result := by
  unfold obtainToken finishExchange
  split_ifs <;> cases ex <;> rfl

theorem getToken_valid (env : Env) (now : Int) (ex : Except Unit TokenResp) (saveOk : Bool)
    (c : OacClient) (h : tokenValid c now) :
    GetToken env now ex saveOk c = ⟨Except.ok c.accessToken, c, false, none⟩ := by
  unfold GetToken
  rw [if_pos h]

theorem getToken_not_valid_ok (env : Env) (now : Int) (tok : TokenResp) (saveOk : Bool)
    (c : OacClient) (h : ¬ tokenValid c now) (henv : envOk env) :
    GetToken env now (Except.ok tok) saveOk c =
      ⟨Except.ok tok.accessToken, applyToken now tok, true,
        if saveOk then some (saveTokenToFile (applyToken now tok)) else none⟩ := by
  unfold GetToken
  rw [if_neg h, obtainToken_envOk env now tok saveOk henv]
  rfl

theorem tokenValid_cleared (e now : Int) : ¬ tokenValid ⟨"", e⟩ now :=
  fun h => h.1 rfl

theorem finishResp_frame (r : Resp) (reqs : List Req) (c : OacClient) (pc : Nat) :
    (finishResp r reqs c pc).requests = reqs ∧ (finishResp r reqs c pc).providerCalls = pc := by
  unfold finishResp
  split_ifs
  · exact ⟨rfl, rfl⟩
  · cases prettyPrintJSON r.body <;> exact ⟨rfl, rfl⟩

/-! ## Claim theorems -/

/-- Claim C1 (counterexample): the claim "whenever `GetToken` returns a
bearer string successfully, the record it came from is valid" is false:
at a concrete state with no usable token and a provider that answers with
an empty `access_token`, `GetToken` succeeds and returns `""` while the
resulting in-memory record violates the section-3 invariant. -/
theorem getToken_invariant_counterexample :
    (GetToken sampleEnv 100 (Except.ok ⟨"", none⟩) true ⟨"", 0⟩).result = Except.ok "" ∧
      ¬ tokenValid (GetToken sampleEnv 100 (Except.ok ⟨"", none⟩) true ⟨"", 0⟩).client 100 :=
  ⟨rfl, by decide⟩

/-- Claim C1 (amended): `GetToken` returns a bearer string without
invoking the Provider only when the in-memory record is valid per the
section-3 invariant (and then it returns exactly that record's bearer);
in particular, for every in-memory record that is not valid — including
every record whose `expires_at` lies in the past — `GetToken` always
invokes the Provider.  (The unamended claim fails only in that a token
freshly returned by the Provider is handed out without re-checking the
invariant; see the counterexample.) -/
theorem getToken_fast_path_validity (env : Env) (now : Int) (ex : Except Unit TokenResp)
    (saveOk : Bool) (c : OacClient) :
    ((GetToken env now ex saveOk c).providerCalled = false →
      tokenValid c now ∧ (GetToken env now ex saveOk c).result = Except.ok c.accessToken) ∧
    (¬ tokenValid c now → (GetToken env now ex saveOk c).providerCalled = true) := by
  by_cases h : tokenValid c now
  · rw [getToken_valid env now ex saveOk c h]
    exact ⟨fun _ => ⟨h, rfl⟩, fun hc => absurd h hc⟩
  · have hcall : (GetToken env now ex saveOk c).providerCalled = true := by
      unfold GetToken
      rw [if_neg h]
      rcases obtainToken env now ex saveOk with ⟨r, n, w⟩
      cases r <;> rfl
    exact ⟨fun hf => absurd hcall (by rw [hf]; decide), fun _ => hcall⟩

/-- Claim C1 (amended, witness): instantiation at a valid record (fast
path, no provider call) and at an expired record (provider invoked). -/
theorem getToken_fast_path_validity_witness :
    ((GetToken sampleEnv 10 (Except.error ()) true ⟨"tok", 100⟩).providerCalled = false →
      tokenValid (⟨"tok", 100⟩ : OacClient) 10 ∧
        (GetToken sampleEnv 10 (Except.error ()) true ⟨"tok", 100⟩).result = Except.ok "tok") ∧
    (¬ tokenValid (⟨"old", 5⟩ : OacClient) 10 →
      (GetToken sampleEnv 10 (Except.error ()) true ⟨"old", 5⟩).providerCalled = true) :=
  ⟨(getToken_fast_path_validity sampleEnv 10 (Except.error ()) true ⟨"tok", 100⟩).1,
   (getToken_fast_path_validity sampleEnv 10 (Except.error ()) true ⟨"old", 5⟩).2⟩

/-- Claim C3 (counterexample): the configuration error does not list the
missing set — a configuration missing only the client id and one missing
only the scope produce the one identical fixed error, whose message is
the constant string "missing required environment variables". -/
theorem obtainToken_config_error_counterexample :
    (obtainToken ⟨"u", "", "sec", "scope", "", "", "client_credentials", "i"⟩ 0
        (Except.ok ⟨"t", none⟩) true).result = Except.error OacError.missingEnv ∧
    (obtainToken ⟨"u", "cid", "sec", "", "", "", "client_credentials", "i"⟩ 0
        (Except.ok ⟨"t", none⟩) true).result = Except.error OacError.missingEnv ∧
    errMsg OacError.missingEnv = "missing required environment variables" :=
  ⟨rfl, rfl, rfl⟩

/-- Claim C3 (amended): `obtainToken` validates before any network call —
an empty client id, client secret, scope or grant type fails with a
configuration error carrying the fixed message "missing required
environment variables" (it does not list the specific missing fields);
grant type `resource_owner` with empty username or password fails with a
configuration error; any other grant-type value fails with an
unsupported-grant error naming the offending value.  In every such case
`network = false`: the token exchange is never reached. -/
theorem obtainToken_validation (env : Env) (now : Int) (ex : Except Unit TokenResp)
    (saveOk : Bool) :
    ((env.clientID = "" ∨ env.clientSecret = "" ∨ env.scope = "" ∨ env.grantType = "") →
      obtainToken env now ex saveOk = ⟨Except.error OacError.missingEnv, false, none⟩) ∧
    (env.clientID ≠ "" → env.clientSecret ≠ "" → env.scope ≠ "" →
      env.grantType = "resource_owner" → (env.username = "" ∨ env.password = "") →
      obtainToken env now ex saveOk = ⟨Except.error OacError.missingUserPass, false, none⟩) ∧
    (env.clientID ≠ "" → env.clientSecret ≠ "" → env.scope ≠ "" → env.grantType ≠ "" →
      env.grantType ≠ "client_credentials" → env.grantType ≠ "resource_owner" →
      obtainToken env now ex saveOk =
        ⟨Except.error (OacError.unsupportedGrant env.grantType), false, none⟩) ∧
    (∀ g : String, errMsg (OacError.unsupportedGrant g) = "unsupported grant type: " ++ g) := by
  refine ⟨?_, ?_, ?_, fun g => rfl⟩
  · intro h
    unfold obtainToken
    rw [if_pos h]
  · intro h1 h2 h3 hro hup
    unfold obtainToken
    rw [if_neg (by simp [h1, h2, h3, hro]), if_neg (by simp [hro]), if_pos hro, if_pos hup]
  · intro h1 h2 h3 h4 hcc hro
    unfold obtainToken
    rw [if_neg (by simp [h1, h2, h3, h4]), if_neg hcc, if_neg hro]

/-- Claim C3 (amended, witness): instantiation at a configuration missing
the client secret, at a `resource_owner` configuration missing the
username, and at the grant type "oops". -/
theorem obtainToken_validation_witness :
    obtainToken ⟨"u", "cid", "", "scope", "", "", "client_credentials", "i"⟩ 7
        (Except.ok ⟨"t", none⟩) true = ⟨Except.error OacError.missingEnv, false, none⟩ ∧
    obtainToken ⟨"u", "cid", "sec", "scope", "", "pw", "resource_owner", "i"⟩ 7
        (Except.ok ⟨"t", none⟩) true = ⟨Except.error OacError.missingUserPass, false, none⟩ ∧
    obtainToken ⟨"u", "cid", "sec", "scope", "", "", "oops", "i"⟩ 7
        (Except.ok ⟨"t", none⟩) true =
      ⟨Except.error (OacError.unsupportedGrant "oops"), false, none⟩ :=
  ⟨(obtainToken_validation ⟨"u", "cid", "", "scope", "", "", "client_credentials", "i"⟩ 7
      (Except.ok ⟨"t", none⟩) true).1 (by simp),
   (obtainToken_validation ⟨"u", "cid", "sec", "scope", "", "pw", "resource_owner", "i"⟩ 7
      (Except.ok ⟨"t", none⟩) true).2.1 (by decide) (by decide) (by decide) rfl (by simp),
   (obtainToken_validation ⟨"u", "cid", "sec", "scope", "", "", "oops", "i"⟩ 7
      (Except.ok ⟨"t", none⟩) true).2.2.1 (by decide) (by decide) (by decide) (by decide)
      (by decide) (by decide)⟩

/-- Claim C4: after a successful exchange the stored `expires_at` is the
advertised expiry minus one minute when one was advertised, and
now + (one hour - one minute) otherwise; hence for an advertised expiry
`T` seconds from now the stored value is at most `T - 60` seconds from
now. -/
theorem obtainToken_expiry_margin (env : Env) (now : Int) (tok : TokenResp) (saveOk : Bool)
    (henv : envOk env) :
    (obtainToken env now (Except.ok tok) saveOk).result = Except.ok (applyToken now tok) ∧
    (∀ e : Int, tok.expiry = some e → (applyToken now tok).tokenExpiry = e - 60) ∧
    (tok.expiry = none → (applyToken now tok).tokenExpiry = now + (3600 - 60)) ∧
    (∀ T : Int, tok.expiry = some (now + T) →
      (applyToken now tok).tokenExpiry ≤ now + (T - 60)) := by
  refine ⟨by rw [obtainToken_envOk env now tok saveOk henv], ?_, ?_, ?_⟩
  · intro e he
    simp [applyToken, he]
  · intro he
    simp [applyToken, he]
  · intro T hT
    simp [applyToken, hT]
    omega

/-- Claim C4 (witness): instantiation with an advertised expiry 300
seconds from now (stored: 240 from now) and with no advertised expiry
(stored: 3540 from now). -/
theorem obtainToken_expiry_margin_witness :
    (obtainToken sampleEnv 1000 (Except.ok ⟨"t", some 1300⟩) true).result =
      Except.ok (applyToken 1000 ⟨"t", some 1300⟩) ∧
    (applyToken 1000 ⟨"t", some 1300⟩).tokenExpiry = 1240 ∧
    (applyToken 1000 ⟨"t", none⟩).tokenExpiry = 1000 + (3600 - 60) ∧
    (applyToken 1000 ⟨"t", some 1300⟩).tokenExpiry ≤ 1000 + (300 - 60) :=
  ⟨(obtainToken_expiry_margin sampleEnv 1000 ⟨"t", some 1300⟩ true (by decide)).1,
   (obtainToken_expiry_margin sampleEnv 1000 ⟨"t", some 1300⟩ true (by decide)).2.1 1300 rfl,
   (obtainToken_expiry_margin sampleEnv 1000 ⟨"t", none⟩ true (by decide)).2.2.1 rfl,
   (obtainToken_expiry_margin sampleEnv 1000 ⟨"t", some 1300⟩ true (by decide)).2.2.2 300 rfl⟩

/-- Claim C7: for a record valid at both call times, repeated `GetToken`
calls return the identical bearer string, leave the state unchanged and
perform no Provider call. -/
theorem getToken_idempotent (env : Env) (t1 t2 : Int) (ex : Except Unit TokenResp)
    (saveOk : Bool) (c : OacClient) (h1 : tokenValid c t1) (h2 : tokenValid c t2) :
    GetToken env t1 ex saveOk c = ⟨Except.ok c.accessToken, c, false, none⟩ ∧
    GetToken env t2 ex saveOk (GetToken env t1 ex saveOk c).client =
      ⟨Except.ok c.accessToken, c, false, none⟩ := by
  refine ⟨getToken_valid env t1 ex saveOk c h1, ?_⟩
  rw [getToken_valid env t1 ex saveOk c h1]
  exact getToken_valid env t2 ex saveOk c h2

/-- Claim C7 (witness): two calls at times 10 and 20 on a record valid
until 100. -/
theorem getToken_idempotent_witness :
    GetToken sampleEnv 10 (Except.error ()) true ⟨"tok", 100⟩ =
      ⟨Except.ok "tok", ⟨"tok", 100⟩, false, none⟩ ∧
    GetToken sampleEnv 20 (Except.error ()) true
        (GetToken sampleEnv 10 (Except.error ()) true ⟨"tok", 100⟩).client =
      ⟨Except.ok "tok", ⟨"tok", 100⟩, false, none⟩ :=
  getToken_idempotent sampleEnv 10 20 (Except.error ()) true ⟨"tok", 100⟩ (by decide) (by decide)

/-- Claim C8: saving a record and loading it back before its expiry
yields a record with the same bearer string and the same (second-
precision) expiry, for any prior in-memory state. -/
theorem store_round_trip (tok : String) (exp now : Int) (c : OacClient) (h : now < exp) :
    loadTokenFromFile (FileState.json (saveTokenToFile ⟨tok, exp⟩)) now c = ⟨tok, exp⟩ := by
  have hne : ¬ (exp < now) := by omega
  show (if exp < now then ({ accessToken := "", tokenExpiry := exp } : OacClient)
        else { accessToken := tok, tokenExpiry := exp }) = ⟨tok, exp⟩
  rw [if_neg hne]

/-- Claim C8 (witness): round trip of the record ("bearer-xyz", 500) read
back at time 100. -/
theorem store_round_trip_witness :
    loadTokenFromFile (FileState.json (saveTokenToFile ⟨"bearer-xyz", 500⟩)) 100 ⟨"x", 1⟩ =
      ⟨"bearer-xyz", 500⟩ :=
  store_round_trip "bearer-xyz" 500 100 ⟨"x", 1⟩ (by decide)

/-- Claim C9: the Token Store never surfaces an error — `loadTokenFromFile`
is a total function that leaves the client unchanged when the cache file
is absent, malformed, not an object, or has wrong field types, and yields
no usable token (clears the bearer) when the recorded expiry has passed;
and a failed save does not change what `GetToken` returns or the
resulting in-memory state (the `saveOk` flag models whether the ignored
`os.WriteFile` succeeded). -/
theorem store_error_tolerance :
    (∀ (now : Int) (c : OacClient), loadTokenFromFile FileState.absent now c = c) ∧
    (∀ (now : Int) (c : OacClient), loadTokenFromFile FileState.malformed now c = c) ∧
    (∀ (now : Int) (c : OacClient) (xs : List Json),
      loadTokenFromFile (FileState.json (Json.arr xs)) now c = c) ∧
    (∀ (now : Int) (c : OacClient) (k e : Int),
      loadTokenFromFile (FileState.json (Json.obj
        [("access_token", Json.num k), ("expires_at", Json.num e)])) now c = c) ∧
    (∀ (tok : String) (exp now : Int) (c : OacClient), exp < now →
      (loadTokenFromFile (FileState.json (saveTokenToFile ⟨tok, exp⟩)) now c).accessToken = "") ∧
    (∀ (env : Env) (now : Int) (ex : Except Unit TokenResp) (c : OacClient) (s s' : Bool),
      (GetToken env now ex s c).result = (GetToken env now ex s' c).result ∧
      (GetToken env now ex s c).client = (GetToken env now ex s' c).client) := by
  refine ⟨fun now c => rfl, fun now c => rfl, fun now c xs => rfl, fun now c k e => rfl,
    ?_, ?_⟩
  · intro tok exp now c h
    show (if exp < now then ({ accessToken := "", tokenExpiry := exp } : OacClient)
          else { accessToken := tok, tokenExpiry := exp }).accessToken = ""
    rw [if_pos h]
  · intro env now ex c s s'
    by_cases h : tokenValid c now
    · rw [getToken_valid env now ex s c h, getToken_valid env now ex s' c h]
      exact ⟨rfl, rfl⟩
    · unfold GetToken
      rw [if_neg h, if_neg h]
      have hres := obtainToken_result_saveOk env now ex s s'
      rcases hs : obtainToken env now ex s with ⟨r1, n1, w1⟩
      rcases hs' : obtainToken env now ex s' with ⟨r2, n2, w2⟩
      rw [hs, hs'] at hres
      simp only at hres
      subst hres
      cases r1 <;> exact ⟨rfl, rfl⟩

/-- Claim C9 (witness): instantiation at an absent file, a wrong-typed
record, an expired record, and a `GetToken` run where saving fails. -/
theorem store_error_tolerance_witness :
    loadTokenFromFile FileState.absent 5 ⟨"t", 9⟩ = ⟨"t", 9⟩ ∧
    loadTokenFromFile (FileState.json (Json.obj
      [("access_token", Json.num 3), ("expires_at", Json.num 9)])) 5 ⟨"t", 9⟩ = ⟨"t", 9⟩ ∧
    (loadTokenFromFile (FileState.json (saveTokenToFile ⟨"t", 4⟩)) 5 ⟨"x", 1⟩).accessToken = "" ∧
    (GetToken sampleEnv 5 (Except.ok ⟨"n", none⟩) true ⟨"", 0⟩).result =
      (GetToken sampleEnv 5 (Except.ok ⟨"n", none⟩) false ⟨"", 0⟩).result :=
  ⟨store_error_tolerance.1 5 ⟨"t", 9⟩,
   store_error_tolerance.2.2.2.1 5 ⟨"t", 9⟩ 3 9,
   store_error_tolerance.2.2.2.2.1 "t" 4 5 ⟨"x", 1⟩ (by decide),
   (store_error_tolerance.2.2.2.2.2 sampleEnv 5 (Except.ok ⟨"n", none⟩) ⟨"", 0⟩ true false).1⟩

/-- Claim C10: after a successful Provider exchange, `GetToken` returns
the newly obtained access token unconditionally, with no re-check of the
validity invariant: whatever the exchanged token's string (including the
empty string), the call succeeds with exactly that string, and when the
advertised expiry is less than 60 seconds away the stored `expires_at`
is already in the past. -/
theorem getToken_returns_fresh_unconditionally (env : Env) (now : Int) (tok : TokenResp)
    (saveOk : Bool) (c : OacClient) (henv : envOk env) (hinv : ¬ tokenValid c now) :
    (GetToken env now (Except.ok tok) saveOk c).result = Except.ok tok.accessToken ∧
    (GetToken env now (Except.ok tok) saveOk c).client = applyToken now tok ∧
    (∀ e : Int, tok.expiry = some e → e < now + 60 →
      (GetToken env now (Except.ok tok) saveOk c).client.tokenExpiry < now) := by
  rw [getToken_not_valid_ok env now tok saveOk c hinv henv]
  refine ⟨rfl, rfl, ?_⟩
  intro e he hlt
  simp [applyToken, he]
  omega

/-- Claim C10 (witness): a provider response with an empty access token
and an expiry 30 seconds away is returned successfully, with a stored
expiry already in the past. -/
theorem getToken_returns_fresh_unconditionally_witness :
    (GetToken sampleEnv 100 (Except.ok ⟨"", some 130⟩) true ⟨"old", 50⟩).result =
      Except.ok "" ∧
    (GetToken sampleEnv 100 (Except.ok ⟨"", some 130⟩) true ⟨"old", 50⟩).client.tokenExpiry
      < 100 :=
  ⟨(getToken_returns_fresh_unconditionally sampleEnv 100 ⟨"", some 130⟩ true ⟨"old", 50⟩
      (by decide) (by decide)).1,
   (getToken_returns_fresh_unconditionally sampleEnv 100 ⟨"", some 130⟩ true ⟨"old", 50⟩
      (by decide) (by decide)).2.2 130 rfl (by decide)⟩

/-- Claim C5: a 2xx body is classified by the first non-whitespace
character — a `\x7b`- or `[`-shaped body is decoded and re-serialized
with indentation, and a malformed body of that shape fails with the
format error (no fallback to raw text); an empty body yields the literal
no-content message; any other body is returned as plain text.  The three
concrete conjuncts check the spec's examples. -/
theorem prettyPrintJSON_classification :
    (∀ data : String, trimSpace data = "" →
      prettyPrintJSON data = Except.ok noContentMsg) ∧
    (∀ data : String, trimSpace data ≠ "" → firstCharIs (trimSpace data) '{' = true →
      unmarshal data = none → prettyPrintJSON data = Except.error OacError.formatError) ∧
    (∀ (data : String) (j : Json), trimSpace data ≠ "" →
      firstCharIs (trimSpace data) '{' = true →
      unmarshal data = some j → prettyPrintJSON data = Except.ok (marshalIndent j)) ∧
    (∀ data : String, trimSpace data ≠ "" → firstCharIs (trimSpace data) '{' = false →
      firstCharIs (trimSpace data) '[' = true →
      unmarshal data = none → prettyPrintJSON data = Except.error OacError.formatError) ∧
    (∀ (data : String) (j : Json), trimSpace data ≠ "" →
      firstCharIs (trimSpace data) '{' = false → firstCharIs (trimSpace data) '[' = true →
      unmarshal data = some j → prettyPrintJSON data = Except.ok (marshalIndent j)) ∧
    (∀ data : String, trimSpace data ≠ "" → firstCharIs (trimSpace data) '{' = false →
      firstCharIs (trimSpace data) '[' = false →
      prettyPrintJSON data = Except.ok (trimSpace data)) ∧
    prettyPrintJSON "\x7b\"a\":1\x7d" = Except.ok "\x7b\n  \"a\": 1\n\x7d" ∧
    prettyPrintJSON "" = Except.ok noContentMsg ∧
    noContentMsg = "Request succeeded (no content)." ∧
    prettyPrintJSON "plain text" = Except.ok "plain text" := by
  refine ⟨?_, ?_, ?_, ?_, ?_, ?_, rfl, rfl, rfl, rfl⟩
  · intro data h
    simp [prettyPrintJSON, h]
  · intro data h hb hu
    simp [prettyPrintJSON, h, hb, hu]
  · intro data j h hb hu
    simp [prettyPrintJSON, h, hb, hu]
  · intro data h hb1 hb2 hu
    simp [prettyPrintJSON, h, hb1, hb2, hu]
  · intro data j h hb1 hb2 hu
    simp [prettyPrintJSON, h, hb1, hb2, hu]
  · intro data h hb1 hb2
    simp [prettyPrintJSON, h, hb1, hb2]

/-- Claim C5 (witness): a malformed object-shaped body fails with the
format error and a padded plain-text body comes back trimmed, via the
universally quantified conjuncts. -/
theorem prettyPrintJSON_classification_witness :
    prettyPrintJSON "\x7b oops" = Except.error OacError.formatError ∧
    prettyPrintJSON "[1, oops]" = Except.error OacError.formatError ∧
    prettyPrintJSON " raw " = Except.ok "raw" :=
  ⟨prettyPrintJSON_classification.2.1 "\x7b oops" (by decide) rfl rfl,
   prettyPrintJSON_classification.2.2.2.1 "[1, oops]" (by decide) rfl rfl rfl,
   prettyPrintJSON_classification.2.2.2.2.2.1 " raw " (by decide) rfl rfl⟩

theorem restCall_attempts_le_two (env : Env) (now : Int) (ex : Except Unit TokenResp)
    (saveOk : Bool) (fs : String → Option String) (http : Nat → Except Unit Resp)
    (method path bodyFile : String) (c : OacClient) :
    (RestCall env now ex saveOk fs http method path bodyFile c).requests.length ≤ 2 := by
  unfold RestCall
  rcases hg : GetToken env now ex saveOk c with ⟨r, cl, p, w⟩
  cases r with
  | error e => simp
  | ok token =>
    dsimp only
    cases h0 : http 0 with
    | error a => simp
    | ok resp0 =>
      dsimp only
      by_cases h401 : resp0.status = 401
      · rw [if_pos h401]
        rcases hg2 : GetToken env now ex saveOk
            { accessToken := "", tokenExpiry := cl.tokenExpiry } with ⟨r2, cl2, p2, w2⟩
        cases r2 with
        | error e => simp
        | ok token2 =>
          dsimp only
          cases h1 : http 1 with
          | error a => simp
          | ok resp1 =>
            rw [(finishResp_frame resp1 _ _ _).1]
            simp
      · rw [if_neg h401]
        rw [(finishResp_frame resp0 _ _ _).1]
        simp

/-- Claim C2: for a REST call whose every HTTP attempt answers 401 (and a
provider able to hand out a token), `RestCall` issues exactly two HTTP
attempts and fails with the request error carrying the status code and
the second attempt's raw body; and — for every configuration, oracle and
state whatsoever — it never issues a third attempt. -/
theorem restCall_retry_bound (env : Env) (now : Int) (tok : TokenResp) (saveOk : Bool)
    (fs : String → Option String) (http : Nat → Except Unit Resp)
    (method path bodyFile : String) (c : OacClient) (b1 b2 : String)
    (henv : envOk env) (h0 : http 0 = Except.ok ⟨401, b1⟩)
    (h1 : http 1 = Except.ok ⟨401, b2⟩) :
    (RestCall env now (Except.ok tok) saveOk fs http method path bodyFile c).requests.length
      = 2 ∧
    (RestCall env now (Except.ok tok) saveOk fs http method path bodyFile c).result =
      Except.error (OacError.requestFailed 401 b2) ∧
    (∀ (env' : Env) (now' : Int) (ex' : Except Unit TokenResp) (saveOk' : Bool)
      (fs' : String → Option String) (http' : Nat → Except Unit Resp)
      (m' p' bf' : String) (c' : OacClient),
      (RestCall env' now' ex' saveOk' fs' http' m' p' bf' c').requests.length ≤ 2) := by
  have key :
      (RestCall env now (Except.ok tok) saveOk fs http method path bodyFile c).requests.length
        = 2 ∧
      (RestCall env now (Except.ok tok) saveOk fs http method path bodyFile c).result =
        Except.error (OacError.requestFailed 401 b2) := by
    by_cases hv : tokenValid c now
    · have hg := getToken_valid env now (Except.ok tok) saveOk c hv
      have hg2 := getToken_not_valid_ok env now tok saveOk ⟨"", c.tokenExpiry⟩
        (tokenValid_cleared c.tokenExpiry now) henv
      unfold RestCall
      rw [hg]
      dsimp only
      rw [h0]
      dsimp only
      rw [if_pos rfl, hg2]
      dsimp only
      rw [h1]
      dsimp only
      refine ⟨by rw [(finishResp_frame _ _ _ _).1]; rfl, ?_⟩
      unfold finishResp
      rw [if_pos (by norm_num)]
    · have hg := getToken_not_valid_ok env now tok saveOk c hv henv
      have hg2 := getToken_not_valid_ok env now tok saveOk
        ⟨"", (applyToken now tok).tokenExpiry⟩
        (tokenValid_cleared (applyToken now tok).tokenExpiry now) henv
      unfold RestCall
      rw [hg]
      dsimp only
      rw [h0]
      dsimp only
      rw [if_pos rfl, hg2]
      dsimp only
      rw [h1]
      dsimp only
      refine ⟨by rw [(finishResp_frame _ _ _ _).1]; rfl, ?_⟩
      unfold finishResp
      rw [if_pos (by norm_num)]
  exact ⟨key.1, key.2, fun env' now' ex' saveOk' fs' http' m' p' bf' c' =>
    restCall_attempts_le_two env' now' ex' saveOk' fs' http' m' p' bf' c'⟩

/-- Claim C2 (witness): with every attempt answering 401 with body
"denied", exactly two attempts are made and the call fails with the
request error carrying 401 and "denied". -/
theorem restCall_retry_bound_witness :
    (RestCall sampleEnv 100 (Except.ok ⟨"fresh", none⟩) true (fun _ => none)
      (fun _ => Except.ok ⟨401, "denied"⟩) "get" "/api/x" "" ⟨"old", 200⟩).requests.length
      = 2 ∧
    (RestCall sampleEnv 100 (Except.ok ⟨"fresh", none⟩) true (fun _ => none)
      (fun _ => Except.ok ⟨401, "denied"⟩) "get" "/api/x" "" ⟨"old", 200⟩).result =
      Except.error (OacError.requestFailed 401 "denied") :=
  ⟨(restCall_retry_bound sampleEnv 100 ⟨"fresh", none⟩ true (fun _ => none)
      (fun _ => Except.ok ⟨401, "denied"⟩) "get" "/api/x" "" ⟨"old", 200⟩ "denied" "denied"
      (by decide) rfl rfl).1,
   (restCall_retry_bound sampleEnv 100 ⟨"fresh", none⟩ true (fun _ => none)
      (fun _ => Except.ok ⟨401, "denied"⟩) "get" "/api/x" "" ⟨"old", 200⟩ "denied" "denied"
      (by decide) rfl rfl).2.1⟩

/-- Claim C6: when the first attempt answers 401, `RestCall` clears the
cached token, re-acquires one (invoking the Provider exactly once), and
re-issues the identical request exactly once — the two issued requests
agree on method, URL and body, and differ only in the Authorization
bearer, the second carrying the freshly exchanged token. -/
theorem restCall_single_retry_identical_request (env : Env) (now : Int) (tok : TokenResp)
    (saveOk : Bool) (fs : String → Option String) (http : Nat → Except Unit Resp)
    (method path bodyFile : String) (c : OacClient) (b1 : String)
    (henv : envOk env) (hv : tokenValid c now) (h0 : http 0 = Except.ok ⟨401, b1⟩) :
    (RestCall env now (Except.ok tok) saveOk fs http method path bodyFile c).requests =
      [⟨method.toUpper, buildURL env.oacInstance path, resolveBody fs bodyFile,
         c.accessToken⟩,
       ⟨method.toUpper, buildURL env.oacInstance path, resolveBody fs bodyFile,
         tok.accessToken⟩] ∧
    (RestCall env now (Except.ok tok) saveOk fs http method path bodyFile c).providerCalls
      = 1 := by
  have hg := getToken_valid env now (Except.ok tok) saveOk c hv
  have hg2 := getToken_not_valid_ok env now tok saveOk ⟨"", c.tokenExpiry⟩
    (tokenValid_cleared c.tokenExpiry now) henv
  unfold RestCall
  rw [hg]
  dsimp only
  rw [h0]
  dsimp only
  rw [if_pos rfl, hg2]
  dsimp only
  cases h1 : http 1 with
  | error a => exact ⟨rfl, by norm_num⟩
  | ok resp1 =>
    refine ⟨(finishResp_frame resp1 _ _ _).1, ?_⟩
    rw [(finishResp_frame resp1 _ _ _).2]
    norm_num

/-- Claim C6 (witness): a POST with inline body "payload" and a valid
cached token "old"; after the 401 the identical request is re-issued once
with the fresh token "fresh", and the provider is called exactly once. -/
theorem restCall_single_retry_identical_request_witness :
    (RestCall sampleEnv 100 (Except.ok ⟨"fresh", none⟩) true (fun _ => none)
      (fun _ => Except.ok ⟨401, "denied"⟩) "post" "/api/x" "payload" ⟨"old", 200⟩).requests =
      [⟨"post".toUpper, buildURL sampleEnv.oacInstance "/api/x",
         resolveBody (fun _ => none) "payload", "old"⟩,
       ⟨"post".toUpper, buildURL sampleEnv.oacInstance "/api/x",
         resolveBody (fun _ => none) "payload", "fresh"⟩] ∧
    (RestCall sampleEnv 100 (Except.ok ⟨"fresh", none⟩) true (fun _ => none)
      (fun _ => Except.ok ⟨401, "denied"⟩) "post" "/api/x" "payload"
      ⟨"old", 200⟩).providerCalls = 1 :=
  restCall_single_retry_identical_request sampleEnv 100 ⟨"fresh", none⟩ true (fun _ => none)
    (fun _ => Except.ok ⟨401, "denied"⟩) "post" "/api/x" "payload" ⟨"old", 200⟩ "denied"
    (by decide) (by decide) rfl

end OacSpec
